import Mathlib

/-!
The ire runtime entry layer (`src/Runtime/entry_linux.c`).

A shallow embedding of the native runtime that is linked into compiled ire
programs: process bootstrap (`_start`), termination (`__irert__exit__`), the
write path (`writefd`, `__irert__writefd__`, `__irert__print__`) and memory
acquisition (`__irert__gc_alloc__`).

The C file reaches the kernel only through two assembly routines it declares
but does not define, `_syscall1` and `_syscall6`, and through three constants
of `<sys/syscall.h>`.  These are gathered in `Platform` and every function of
the file is a definition over an arbitrary platform.  Each kernel request is
recorded, in order, in the `trace` of the `World`.

Machine integers: `size_t` and pointers are `Nat` (64-bit words), `int64_t`
and `int32_t` are `Int`; each C conversion is an explicit function
(`toWord`, `toInt64`, `toInt32`).
-/

namespace IreRuntime

/-! ## Machine integers -/

/-- Number of values of a 64-bit machine word (`size_t`). -/
def WORD : Nat := 2 ^ 64

/-- Conversion of a signed integer to `size_t`: the value modulo `2^64`. -/
def toWord (i : Int) : Nat := (i % (WORD : Int)).toNat

/-- Conversion of a `size_t` to `int64_t`: the same 64 bits read as two's
complement. -/
def toInt64 (n : Nat) : Int :=
  if n % WORD < 2 ^ 63 then ((n % WORD : Nat) : Int) else ((n % WORD : Nat) : Int) - (WORD : Int)

/-- Conversion of an `int64_t` to `int32_t`: the low 32 bits read as two's
complement. -/
def toInt32 (i : Int) : Int :=
  if i % 2 ^ 32 < 2 ^ 31 then i % 2 ^ 32 else i % 2 ^ 32 - 2 ^ 32

/-! ## Data model -/

/-- The runtime string `struct i_string_t`: a signed byte length and the
address of the first byte. -/
structure i_string_t where
  bytes : Int
  ptr : Nat
deriving DecidableEq

/-- The empty value `struct i_void_t`. -/
structure i_void_t where
deriving DecidableEq

/-! ## The kernel boundary -/

/-- What `entry_linux.c` takes from outside: the three syscall numbers of
`<sys/syscall.h>` and the kernel's reaction to a request entered through the
one-argument and the six-argument gateway.  A reaction is the raw result word
(`none` when control never comes back to the process) and the kernel state
afterwards. -/
structure Platform (κ : Type) where
  SYS_exit : Nat
  SYS_mmap : Nat
  SYS_write : Nat
  enter1 : κ → Nat → Nat → Option Nat × κ
  enter6 : κ → Nat → Nat → Nat → Nat → Nat → Nat → Nat → Option Nat × κ

/-- A request that crossed the gateway: its syscall number and arguments. -/
inductive Request where
  | syscall1 (nr a1 : Nat)
  | syscall6 (nr a1 a2 a3 a4 a5 a6 : Nat)
deriving DecidableEq

/-- Kernel state together with the requests issued so far, oldest first. -/
structure World (κ : Type) where
  kernel : κ
  trace : List Request
deriving DecidableEq

/-- How a call ends: it returns a value to its caller, or control never comes
back from the kernel. -/
inductive Outcome (κ : Type) (α : Type) where
  | returned (value : α) (w : World κ)
  | halted (w : World κ)
deriving DecidableEq

/-- The world a call leaves behind. -/
def Outcome.world {κ α : Type} : Outcome κ α → World κ
  | .returned _ w => w
  | .halted w => w

/-- The value handed back to the caller, if control came back. -/
def Outcome.value {κ α : Type} : Outcome κ α → Option α
  | .returned v _ => some v
  | .halted _ => none

/-- Post-processing of the returned value (a C conversion of the result). -/
def Outcome.map {κ α β : Type} (f : α → β) : Outcome κ α → Outcome κ β
  | .returned v w => .returned (f v) w
  | .halted w => .halted w

/-- A C function body: from the world at the call to its outcome. -/
abbrev Run (κ : Type) (α : Type) := World κ → Outcome κ α

/-- Sequencing of statements: the rest runs only if the first part returns. -/
def Run.andThen {κ α β : Type} (m : Run κ α) (rest : α → Run κ β) : Run κ β :=
  fun w =>
    match m w with
    | .returned v w1 => rest v w1
    | .halted w1 => .halted w1

/-- The assembly routine `_syscall1`: enters the kernel with a number and one
argument and returns the raw result. -/
def _syscall1 {κ : Type} (P : Platform κ) (nr a1 : Nat) : Run κ Nat :=
  fun w =>
    match P.enter1 w.kernel nr a1 with
    | (some r, k) => .returned r ⟨k, w.trace ++ [Request.syscall1 nr a1]⟩
    | (none, k) => .halted ⟨k, w.trace ++ [Request.syscall1 nr a1]⟩

/-- The assembly routine `_syscall6`: enters the kernel with a number and six
arguments and returns the raw result. -/
def _syscall6 {κ : Type} (P : Platform κ) (nr a1 a2 a3 a4 a5 a6 : Nat) : Run κ Nat :=
  fun w =>
    match P.enter6 w.kernel nr a1 a2 a3 a4 a5 a6 with
    | (some r, k) => .returned r ⟨k, w.trace ++ [Request.syscall6 nr a1 a2 a3 a4 a5 a6]⟩
    | (none, k) => .halted ⟨k, w.trace ++ [Request.syscall6 nr a1 a2 a3 a4 a5 a6]⟩

/-! ## The functions of `entry_linux.c` -/

/-- `void __irert__exit__(int64_t status)`: one request through the
one-argument gateway, result dropped. -/
def __irert__exit__ {κ : Type} (P : Platform κ) (status : Int) : Run κ Unit :=
  Run.andThen (_syscall1 P P.SYS_exit (toWord status)) (fun _ w => .returned () w)

/-- `void _start()`: runs the generated entry point `main`, then calls
`__irert__exit__(0)`.  A `returned` outcome means control ran off the end of
`_start`. -/
def _start {κ : Type} (P : Platform κ) (main : Run κ Unit) : Run κ Unit :=
  Run.andThen main (fun _ => __irert__exit__ P 0)

/-- `int64_t writefd(int32_t fd, int8_t* buffer, size_t count)`: `fd` is
sign-extended to a word, the result word is read as `int64_t`. -/
def writefd {κ : Type} (P : Platform κ) (fd : Int) (buffer : Nat) (count : Nat) : Run κ Int :=
  fun w => Outcome.map toInt64 (_syscall6 P P.SYS_write (toWord fd) buffer count 0 0 0 w)

/-- `int64_t __irert__writefd__(int64_t fd, struct i_string_t str)`: the
descriptor is narrowed to `int32_t` and the length converted to `size_t` by
the call of `writefd`. -/
def __irert__writefd__ {κ : Type} (P : Platform κ) (fd : Int) (str : i_string_t) : Run κ Int :=
  writefd P (toInt32 fd) str.ptr (toWord str.bytes)

/-- `int8_t* __irert__gc_alloc__(int64_t numbytes)`: one `mmap` request, the
result word returned as the pointer. -/
def __irert__gc_alloc__ {κ : Type} (P : Platform κ) (numbytes : Int) : Run κ Nat :=
  _syscall6 P P.SYS_mmap 0 (toWord numbytes) 0x3 0x22 (toWord (-1)) 0

/-- `void __irert__print__(struct i_string_t str)`: calls
`__irert__writefd__(1, str)` and drops its result. -/
def __irert__print__ {κ : Type} (P : Platform κ) (str : i_string_t) : Run κ Unit :=
  Run.andThen (__irert__writefd__ P 1 str) (fun _ w => .returned () w)

/-! ## The kernel's side

The kernel is not part of `entry_linux.c`.  What the design document says
about it is collected here: the contract of process exit, and one concrete
kernel on which the end-to-end scenarios are run. -/

/-- Modelled from the spec: the kernel's handling of the exit request, which
the repository leaves to the kernel behind `_syscall1`.  Control never comes
back to the process, and the status a parent observes afterwards is the low
byte of the argument (sections 4.4 and 8). -/
def ExitContract {κ : Type} (P : Platform κ) (status : κ → Option Nat) : Prop :=
  ∀ (k : κ) (a : Nat),
    (P.enter1 k P.SYS_exit a).1 = none ∧ status (P.enter1 k P.SYS_exit a).2 = some (a % 256)

/-- A failure reply: the negated error number as a machine word. -/
def failure (errno : Nat) : Nat := WORD - errno

/-- Error number: descriptor not open. -/
def EBADF : Nat := 9
/-- Error number: no address space left. -/
def ENOMEM : Nat := 12
/-- Error number: buffer not readable. -/
def EFAULT : Nat := 14
/-- Error number: request refused. -/
def EINVAL : Nat := 22
/-- Error number: unknown request. -/
def ENOSYS : Nat := 38

/-- Mapping granularity. -/
def PAGE : Nat := 4096

/-- End of the address range a process can map (x86-64 user space). -/
def TASK_SIZE : Nat := 2 ^ 47

/-- Length of a mapping request rounded up to whole pages. -/
def roundUp (len : Nat) : Nat := (len + PAGE - 1) / PAGE * PAGE

/-- A mapped region of the address space. -/
structure Mapping where
  base : Nat
  len : Nat
deriving DecidableEq

/-- An open descriptor: the bytes its destination accepts per request and the
bytes written to it so far. -/
structure OpenFile where
  fd : Nat
  room : Nat
  data : List Nat
deriving DecidableEq

/-- State of the model kernel: mapped regions, the bytes stored in them (a
mapped address without an entry reads zero), the next address it hands out,
the number of bytes of memory it will still commit, the open descriptors, and
the exit status once the process has ended. -/
structure LinuxState where
  maps : List Mapping
  cells : List (Nat × Nat)
  next : Nat
  avail : Nat
  files : List OpenFile
  exited : Option Nat
deriving DecidableEq

/-- Whether an address lies in a mapped region. -/
def mapped (k : LinuxState) (a : Nat) : Bool :=
  k.maps.any (fun m => decide (m.base ≤ a ∧ a < m.base + m.len))

/-- The byte at an address, `none` when the address is not mapped. -/
def readByte (k : LinuxState) (a : Nat) : Option Nat :=
  if mapped k a then some ((k.cells.lookup a).getD 0) else none

/-- The `n` bytes starting at an address, `none` when one is not mapped. -/
def readBytes (k : LinuxState) (a : Nat) : Nat → Option (List Nat)
  | 0 => some []
  | n + 1 =>
    match readByte k a, readBytes k (a + 1) n with
    | some b, some bs => some (b :: bs)
    | _, _ => none

/-- Whether a descriptor is open. -/
def isOpen (k : LinuxState) (fd : Nat) : Bool :=
  (k.files.find? (fun f => decide (f.fd = fd))).isSome

/-- Whether the kernel can grant a mapping of `size` bytes: the memory is
still there to commit, the run of addresses from `next` ends inside the
address range of the process, and no existing mapping overlaps it. -/
def grantable (k : LinuxState) (size : Nat) : Bool :=
  decide (size ≤ k.avail) && decide (k.next + size ≤ TASK_SIZE)
    && k.maps.all (fun m => decide (m.base + m.len ≤ k.next ∨ k.next + size ≤ m.base))

/-- The bytes written so far to a descriptor, `none` when it is not open. -/
def written (k : LinuxState) (fd : Nat) : Option (List Nat) :=
  (k.files.find? (fun f => decide (f.fd = fd))).map (fun f => f.data)

/-- Modelled from the spec: the kernel's answer to an exit request, behind
the absent `_syscall1` (section 4.4, section 8).  The process ends, control
does not come back, and the status is the low byte of the argument. -/
def linuxExit (k : LinuxState) (a1 : Nat) : Option Nat × LinuxState :=
  (none, { k with exited := some (a1 % 256) })

/-- Modelled from the spec: the kernel's answer to a write request, behind
the absent `_syscall6` (section 4.3, section 8).  The reply is a byte count
or a negative failure indicator: a descriptor that is not open fails; a
request for zero bytes returns 0 without touching the buffer; otherwise as
many bytes as the destination accepts (possibly fewer than asked) are read
from the buffer and appended, and a buffer that is not readable fails. -/
def linuxWrite (k : LinuxState) (fd buf count : Nat) : Option Nat × LinuxState :=
  match k.files.find? (fun f => decide (f.fd = fd)) with
  | none => (some (failure EBADF), k)
  | some f =>
    if count = 0 then (some 0, k)
    else
      match readBytes k buf (min count f.room) with
      | none => (some (failure EFAULT), k)
      | some bs =>
        (some (min count f.room),
          { k with
            files := k.files.map
              (fun g => if g.fd = fd then { g with data := g.data ++ bs } else g) })

/-- The kernel state after a mapping of `size` bytes was granted at `next`:
the region is recorded, bytes stored earlier at its addresses are cleared so
that it reads zero, and the memory is taken from what is left to commit. -/
def afterGrant (k : LinuxState) (size : Nat) : LinuxState :=
  { k with
    maps := ⟨k.next, size⟩ :: k.maps,
    cells := k.cells.filter (fun c => !decide (k.next ≤ c.1 ∧ c.1 < k.next + size)),
    next := k.next + size,
    avail := k.avail - size }

/-- Modelled from the spec: the kernel's answer to a mapping request, behind
the absent `_syscall6` (section 4.2, section 8).  Only the anonymous private
read+write shape is served.  The count must be positive, so a zero length is
refused, and so is a length that cannot be granted (no memory left to commit,
or no free run of addresses); the reply is then a failure value and nothing
changes.  A granted mapping is a fresh run of whole pages, disjoint from every
earlier mapping, whose bytes all read zero. -/
def linuxMmap (k : LinuxState) (len prot flags off : Nat) : Option Nat × LinuxState :=
  if len = 0 then (some (failure EINVAL), k)
  else if prot ≠ 0x3 ∨ flags ≠ 0x22 ∨ off ≠ 0 then (some (failure EINVAL), k)
  else if grantable k (roundUp len) = false then (some (failure ENOMEM), k)
  else (some k.next, afterGrant k (roundUp len))

/-- Modelled from the spec: a kernel behind the two gateway routines, which
the repository declares but does not contain.  It serves the three requests
the design document names (process exit, anonymous private read+write memory
mapping, write to a descriptor) with the x86-64 numbers 60, 9 and 1, answers
a failure with a negated error number, and refuses every other request. -/
def linux : Platform LinuxState where
  SYS_exit := 60
  SYS_mmap := 9
  SYS_write := 1
  enter1 := fun k nr a1 =>
    if nr = 60 then linuxExit k a1 else (some (failure ENOSYS), k)
  enter6 := fun k nr a1 a2 a3 a4 _ a6 =>
    if nr = 1 then linuxWrite k a1 a2 a3
    else if nr = 9 then linuxMmap k a2 a3 a4 a6
    else (some (failure ENOSYS), k)

/-- A process image at start: the five bytes of "hello" at address 0x1000,
standard output and standard error open, 4 GiB of memory left to commit. -/
def helloState : LinuxState where
  maps := [⟨0x1000, 4096⟩]
  cells := [(0x1000, 104), (0x1001, 101), (0x1002, 108), (0x1003, 108), (0x1004, 111)]
  next := 0x10000
  avail := 2 ^ 32
  files := [⟨1, 65536, []⟩, ⟨2, 65536, []⟩]
  exited := none

/-- The runtime string "hello" of `helloState`. -/
def hello : i_string_t := ⟨5, 0x1000⟩

/-- The world in which a process starts on `helloState`. -/
def helloWorld : World LinuxState := ⟨helloState, []⟩

/-- The same process image started with no descriptor open. -/
def closedWorld : World LinuxState := ⟨{ helloState with files := [] }, []⟩

/-- A string of length zero whose pointer is not a mapped address. -/
def emptyDangling : i_string_t := ⟨0, 0xdead0000⟩

/-- A generated entry point that does nothing. -/
def skip {κ : Type} : Run κ Unit := fun w => .returned () w


/-! ## Conversions between machine integers -/

theorem toWord_cast (i : Int) : ((toWord i : Nat) : Int) = i % 2 ^ 64 := by
  unfold toWord WORD
  have h : (0 : Int) ≤ i % 2 ^ 64 := Int.emod_nonneg _ (by norm_num)
  simpa using Int.toNat_of_nonneg h

theorem toWord_lt (i : Int) : toWord i < 2 ^ 64 := by
  have h := toWord_cast i
  omega

theorem toWord_of_nonneg (i : Int) (h0 : 0 ≤ i) (h1 : i < 2 ^ 63) : toWord i = i.toNat := by
  have h := toWord_cast i
  omega

theorem toWord_of_neg (i : Int) (h0 : -2 ^ 63 ≤ i) (h1 : i < 0) :
    ((toWord i : Nat) : Int) = 2 ^ 64 + i := by
  have h := toWord_cast i
  omega

theorem toInt64_toWord (i : Int) (h0 : -2 ^ 63 ≤ i) (h1 : i < 2 ^ 63) :
    toInt64 (toWord i) = i := by
  have h := toWord_cast i
  unfold toInt64 WORD
  split <;> omega

theorem toWord_toInt64 (n : Nat) : toWord (toInt64 n) = n % WORD := by
  unfold toInt64
  split
  · have h := toWord_cast ((n % WORD : Nat) : Int)
    unfold WORD at *
    omega
  · have h := toWord_cast (((n % WORD : Nat) : Int) - (WORD : Int))
    unfold WORD at *
    omega

theorem toInt32_range (i : Int) : -2 ^ 31 ≤ toInt32 i ∧ toInt32 i < 2 ^ 31 := by
  unfold toInt32
  split <;> omega

theorem toInt32_eq_iff (i : Int) : toInt32 i = i ↔ -2 ^ 31 ≤ i ∧ i < 2 ^ 31 := by
  unfold toInt32
  split <;> omega

theorem toWord_low_byte (c : Int) : ((toWord c % 256 : Nat) : Int) = c % 256 := by
  have h := toWord_cast c
  omega

/-! ## The gateway issues one request -/

theorem Outcome.world_map {κ α β : Type} (f : α → β) (o : Outcome κ α) :
    (Outcome.map f o).world = o.world := by
  cases o <;> rfl

theorem Outcome.value_map {κ α β : Type} (f : α → β) (o : Outcome κ α) :
    (Outcome.map f o).value = o.value.map f := by
  cases o <;> rfl

theorem syscall1_world {κ : Type} (P : Platform κ) (nr a1 : Nat) (w : World κ) :
    (_syscall1 P nr a1 w).world
      = ⟨(P.enter1 w.kernel nr a1).2, w.trace ++ [Request.syscall1 nr a1]⟩ := by
  unfold _syscall1
  rcases h : P.enter1 w.kernel nr a1 with ⟨_ | r, k⟩ <;> simp [Outcome.world]

theorem syscall1_value {κ : Type} (P : Platform κ) (nr a1 : Nat) (w : World κ) :
    (_syscall1 P nr a1 w).value = (P.enter1 w.kernel nr a1).1 := by
  unfold _syscall1
  rcases h : P.enter1 w.kernel nr a1 with ⟨_ | r, k⟩ <;> simp [Outcome.value]

theorem syscall6_world {κ : Type} (P : Platform κ) (nr a1 a2 a3 a4 a5 a6 : Nat) (w : World κ) :
    (_syscall6 P nr a1 a2 a3 a4 a5 a6 w).world
      = ⟨(P.enter6 w.kernel nr a1 a2 a3 a4 a5 a6).2,
          w.trace ++ [Request.syscall6 nr a1 a2 a3 a4 a5 a6]⟩ := by
  unfold _syscall6
  rcases h : P.enter6 w.kernel nr a1 a2 a3 a4 a5 a6 with ⟨_ | r, k⟩ <;> simp [Outcome.world]

theorem syscall6_value {κ : Type} (P : Platform κ) (nr a1 a2 a3 a4 a5 a6 : Nat) (w : World κ) :
    (_syscall6 P nr a1 a2 a3 a4 a5 a6 w).value = (P.enter6 w.kernel nr a1 a2 a3 a4 a5 a6).1 := by
  unfold _syscall6
  rcases h : P.enter6 w.kernel nr a1 a2 a3 a4 a5 a6 with ⟨_ | r, k⟩ <;> simp [Outcome.value]

/-- The request `__irert__writefd__` issues, for any descriptor and string:
one write request whose descriptor is the narrowed `fd` and whose count is
the length as a word; the value returned is the reply read as `int64_t`. -/
theorem writefd_outcome {κ : Type} (P : Platform κ) (fd : Int) (str : i_string_t) (w : World κ) :
    (__irert__writefd__ P fd str w).world
        = ⟨(P.enter6 w.kernel P.SYS_write (toWord (toInt32 fd)) str.ptr (toWord str.bytes) 0 0 0).2,
            w.trace ++ [Request.syscall6 P.SYS_write (toWord (toInt32 fd)) str.ptr
              (toWord str.bytes) 0 0 0]⟩
      ∧ (__irert__writefd__ P fd str w).value
        = (P.enter6 w.kernel P.SYS_write (toWord (toInt32 fd)) str.ptr
            (toWord str.bytes) 0 0 0).1.map toInt64 := by
  unfold __irert__writefd__ writefd
  rw [Outcome.world_map, Outcome.value_map, syscall6_world, syscall6_value]
  exact ⟨rfl, rfl⟩

/-! ## C1: the write operation -/

/-- C1, as stated, fails: called with the descriptor `2^32 + 1`,
`__irert__writefd__` issues its write request on descriptor 1, not on the
descriptor it was given. -/
theorem writefd_descriptor_counterexample :
    (__irert__writefd__ linux (2 ^ 32 + 1) hello helloWorld).world.trace
        = [Request.syscall6 linux.SYS_write 1 hello.ptr 5 0 0 0]
      ∧ (__irert__writefd__ linux (2 ^ 32 + 1) hello helloWorld).world.trace
        ≠ helloWorld.trace
            ++ [Request.syscall6 linux.SYS_write (toWord (2 ^ 32 + 1)) hello.ptr 5 0 0 0] := by
  decide

/-- C1, amended: for every descriptor `fd` in the `int32_t` range and every
string with `0 ≤ bytes`, `__irert__writefd__` enters the six-argument gateway
exactly once, with `SYS_write`, the arguments `fd`, `ptr`, `bytes` and three
zeros; the kernel state afterwards is the one that request leaves, and the
value returned is the reply unchanged (the same 64 bits, read as signed). -/
theorem writefd_single_request {κ : Type} (P : Platform κ) (fd : Int) (str : i_string_t)
    (w : World κ) (hfd : -2 ^ 31 ≤ fd ∧ fd < 2 ^ 31)
    (hlen : 0 ≤ str.bytes ∧ str.bytes < 2 ^ 63) :
    (__irert__writefd__ P fd str w).world
        = ⟨(P.enter6 w.kernel P.SYS_write (toWord fd) str.ptr str.bytes.toNat 0 0 0).2,
            w.trace ++ [Request.syscall6 P.SYS_write (toWord fd) str.ptr str.bytes.toNat 0 0 0]⟩
      ∧ (__irert__writefd__ P fd str w).value
        = (P.enter6 w.kernel P.SYS_write (toWord fd) str.ptr str.bytes.toNat 0 0 0).1.map toInt64
      ∧ toInt64 (toWord fd) = fd
      ∧ ((str.bytes.toNat : Nat) : Int) = str.bytes
      ∧ ∀ r : Nat, toWord (toInt64 r) = r % WORD := by
  have h32 : toInt32 fd = fd := (toInt32_eq_iff fd).2 hfd
  have hcount : toWord str.bytes = str.bytes.toNat := toWord_of_nonneg _ hlen.1 hlen.2
  have h := writefd_outcome P fd str w
  rw [h32, hcount] at h
  refine ⟨h.1, h.2, ?_, ?_, toWord_toInt64⟩
  · exact toInt64_toWord fd (by omega) (by omega)
  · exact Int.toNat_of_nonneg hlen.1

/-- Witness for C1 (amended): "hello" written to descriptor 1 of the model
kernel. -/
theorem writefd_single_request_witness :
    ((-2 ^ 31 ≤ (1 : Int) ∧ (1 : Int) < 2 ^ 31) ∧ (0 ≤ hello.bytes ∧ hello.bytes < 2 ^ 63))
      ∧ (__irert__writefd__ linux 1 hello helloWorld).world.trace
          = [Request.syscall6 1 1 0x1000 5 0 0 0]
      ∧ (__irert__writefd__ linux 1 hello helloWorld).value = some 5 :=
  ⟨⟨by decide, by decide⟩,
    by
      have h := writefd_single_request linux 1 hello helloWorld (by decide) (by decide)
      rw [h.1, h.2.1]
      decide⟩

/-! ## C2: memory acquisition -/

/-- C2: `__irert__gc_alloc__` enters the six-argument gateway exactly once,
with `SYS_mmap`, address hint 0, the byte count as a word (no rounding),
protection 3, flags 0x22, descriptor -1 and offset 0; the kernel state
afterwards is the one that request leaves and the pointer returned is the raw
reply, whatever it is. -/
theorem gc_alloc_single_mmap {κ : Type} (P : Platform κ) (numbytes : Int) (w : World κ) :
    (__irert__gc_alloc__ P numbytes w).world
        = ⟨(P.enter6 w.kernel P.SYS_mmap 0 (toWord numbytes) 3 34 (2 ^ 64 - 1) 0).2,
            w.trace ++ [Request.syscall6 P.SYS_mmap 0 (toWord numbytes) 3 34 (2 ^ 64 - 1) 0]⟩
      ∧ (__irert__gc_alloc__ P numbytes w).value
        = (P.enter6 w.kernel P.SYS_mmap 0 (toWord numbytes) 3 34 (2 ^ 64 - 1) 0).1
      ∧ ((toWord numbytes : Nat) : Int) = numbytes % 2 ^ 64
      ∧ toInt64 (2 ^ 64 - 1) = -1 := by
  have hm : toWord (-1) = 2 ^ 64 - 1 := by decide
  unfold __irert__gc_alloc__
  rw [syscall6_world, syscall6_value, hm]
  exact ⟨rfl, rfl, toWord_cast numbytes, by decide⟩

/-! ## Sequencing and termination -/

theorem andThen_returned {κ α β : Type} (m : Run κ α) (rest : α → Run κ β) (w w1 : World κ)
    (v : α) (h : m w = .returned v w1) : Run.andThen m rest w = rest v w1 := by
  simp [Run.andThen, h]

theorem andThen_halted {κ α β : Type} (m : Run κ α) (rest : α → Run κ β) (w w1 : World κ)
    (h : m w = .halted w1) : Run.andThen m rest w = .halted w1 := by
  simp [Run.andThen, h]

theorem exit_world {κ : Type} (P : Platform κ) (c : Int) (w : World κ) :
    (__irert__exit__ P c w).world
      = ⟨(P.enter1 w.kernel P.SYS_exit (toWord c)).2,
          w.trace ++ [Request.syscall1 P.SYS_exit (toWord c)]⟩ := by
  unfold __irert__exit__ Run.andThen _syscall1
  rcases h : P.enter1 w.kernel P.SYS_exit (toWord c) with ⟨_ | r, k⟩ <;> simp [Outcome.world]

theorem exit_halted {κ : Type} (P : Platform κ) (c : Int) (w : World κ)
    (h : (P.enter1 w.kernel P.SYS_exit (toWord c)).1 = none) :
    __irert__exit__ P c w
      = .halted ⟨(P.enter1 w.kernel P.SYS_exit (toWord c)).2,
          w.trace ++ [Request.syscall1 P.SYS_exit (toWord c)]⟩ := by
  unfold __irert__exit__ Run.andThen _syscall1
  rcases h1 : P.enter1 w.kernel P.SYS_exit (toWord c) with ⟨_ | r, k⟩
  · simp
  · rw [h1] at h
    simp at h

theorem toWord_zero : toWord 0 = 0 := by decide

theorem linux_exit_contract : ExitContract linux (fun k => k.exited) := by
  intro k a
  simp [linux, linuxExit]

theorem exit_status_of_contract {κ : Type} (P : Platform κ) (status : κ → Option Nat)
    (hk : ExitContract P status) (c : Int) (k : κ) :
    (status (P.enter1 k P.SYS_exit (toWord c)).2).map (fun n => (n : Int)) = some (c % 256) := by
  simp only [(hk k (toWord c)).2, Option.map_some']
  exact congrArg some (toWord_low_byte c)

/-! ## C3: the bootstrap -/

/-- C3: when the generated entry point `main`, run once from the starting
world, returns normally in world `w1`, `_start` continues with
`__irert__exit__(0)` from `w1`: the requests issued are those of `main`
followed by exactly one exit request with status 0, and the kernel state is
the one that request leaves after the state `main` left. -/
theorem start_exit_zero_after_main {κ : Type} (P : Platform κ) (main : Run κ Unit)
    (w w1 : World κ) (hmain : main w = .returned () w1) :
    _start P main w = __irert__exit__ P 0 w1
      ∧ (_start P main w).world.trace = w1.trace ++ [Request.syscall1 P.SYS_exit 0]
      ∧ (_start P main w).world.kernel = (P.enter1 w1.kernel P.SYS_exit 0).2 := by
  have h : _start P main w = __irert__exit__ P 0 w1 := by
    unfold _start
    exact andThen_returned main _ w w1 () hmain
  rw [h, exit_world, toWord_zero]
  exact ⟨rfl, rfl, rfl⟩

/-- Witness for C3: the entry point that prints "hello" on the model kernel.
-/
theorem start_exit_zero_after_main_witness :
    __irert__print__ linux hello helloWorld
        = .returned () (__irert__print__ linux hello helloWorld).world
      ∧ (_start linux (__irert__print__ linux hello) helloWorld).world.trace
        = [Request.syscall6 1 1 0x1000 5 0 0 0, Request.syscall1 60 0] :=
  ⟨by decide,
    by
      have h := start_exit_zero_after_main linux (__irert__print__ linux hello) helloWorld
        (__irert__print__ linux hello helloWorld).world (by decide)
      rw [h.2.1]
      decide⟩

/-! ## C4: termination -/

/-- C4: on a kernel that honours the exit contract, `__irert__exit__(c)`
issues one request through the one-argument gateway, with `SYS_exit` and `c`
as a word, and control never comes back: whatever code follows the call is
not run, and the status observed afterwards is `c mod 256`. -/
theorem exit_never_returns {κ β : Type} (P : Platform κ) (status : κ → Option Nat)
    (hk : ExitContract P status) (c : Int) (rest : Unit → Run κ β) (w : World κ) :
    __irert__exit__ P c w
        = .halted ⟨(P.enter1 w.kernel P.SYS_exit (toWord c)).2,
            w.trace ++ [Request.syscall1 P.SYS_exit (toWord c)]⟩
      ∧ Run.andThen (__irert__exit__ P c) rest w
        = .halted ⟨(P.enter1 w.kernel P.SYS_exit (toWord c)).2,
            w.trace ++ [Request.syscall1 P.SYS_exit (toWord c)]⟩
      ∧ (status (__irert__exit__ P c w).world.kernel).map (fun n => (n : Int)) = some (c % 256)
      ∧ ((toWord c : Nat) : Int) = c % 2 ^ 64 := by
  have h := exit_halted P c w (hk w.kernel (toWord c)).1
  refine ⟨h, andThen_halted _ rest w _ h, ?_, toWord_cast c⟩
  rw [exit_world]
  exact exit_status_of_contract P status hk c w.kernel

/-- Witness for C4: status -1 on the model kernel is observed as 255, and
the write that follows the call is never issued. -/
theorem exit_never_returns_witness :
    ExitContract linux (fun k => k.exited)
      ∧ Run.andThen (__irert__exit__ linux (-1)) (fun _ => __irert__print__ linux hello)
          helloWorld
        = .halted ⟨{ helloState with exited := some 255 }, [Request.syscall1 60 (2 ^ 64 - 1)]⟩ :=
  ⟨linux_exit_contract,
    by
      have h := exit_never_returns linux (fun k => k.exited) linux_exit_contract (-1)
        (fun _ => __irert__print__ linux hello) helloWorld
      rw [h.2.1]
      decide⟩

/-! ## C5: print -/

/-- C5, as stated, fails: what `__irert__print__` hands to its caller is not
the byte count of `__irert__writefd__(1, s)`.  On the model kernel the count
is 5 with standard output open and -9 with it closed, while print returns the
same empty value in both runs, so no reading of print's result gives the
count. -/
theorem print_result_counterexample :
    ¬ ∃ out : Unit → Int, ∀ w : World LinuxState,
        (__irert__print__ linux hello w).value.map out
          = (__irert__writefd__ linux 1 hello w).value := by
  rintro ⟨out, h⟩
  have h1 := h helloWorld
  have h2 := h closedWorld
  have p1 : (__irert__print__ linux hello helloWorld).value = some () := by decide
  have p2 : (__irert__print__ linux hello closedWorld).value = some () := by decide
  have v1 : (__irert__writefd__ linux 1 hello helloWorld).value = some 5 := by decide
  have v2 : (__irert__writefd__ linux 1 hello closedWorld).value = some (-9) := by decide
  rw [p1, v1] at h1
  rw [p2, v2] at h2
  simp only [Option.map_some', Option.some.injEq] at h1 h2
  omega

/-- C5, amended: `__irert__print__(s)` performs exactly the kernel request of
`__irert__writefd__(1, s)`, one write request on descriptor 1 for `s.ptr` and
`s.bytes`, and leaves the same world; the count or failure value that
`__irert__writefd__` returns is dropped and nothing is returned to the caller.
-/
theorem print_is_writefd_one_result_dropped {κ : Type} (P : Platform κ) (s : i_string_t)
    (w : World κ) :
    __irert__print__ P s w = Outcome.map (fun _ => ()) (__irert__writefd__ P 1 s w)
      ∧ (__irert__print__ P s w).world = (__irert__writefd__ P 1 s w).world
      ∧ (__irert__print__ P s w).world.trace
        = w.trace ++ [Request.syscall6 P.SYS_write 1 s.ptr (toWord s.bytes) 0 0 0] := by
  have h : __irert__print__ P s w = Outcome.map (fun _ => ()) (__irert__writefd__ P 1 s w) := by
    unfold __irert__print__ Run.andThen
    cases __irert__writefd__ P 1 s w <;> rfl
  have h1 : toWord (toInt32 1) = 1 := by decide
  rw [h, Outcome.world_map, (writefd_outcome P 1 s w).1, h1]
  exact ⟨rfl, rfl, rfl⟩

/-! ## C6: the zero-length write -/

/-- C6, as stated, fails: a zero-length write on descriptor 5, which the
model kernel does not have open, returns -9 and not 0. -/
theorem writefd_zero_length_counterexample :
    emptyDangling.bytes = 0
      ∧ (__irert__writefd__ linux 5 emptyDangling helloWorld).value = some (-9)
      ∧ (__irert__writefd__ linux 5 emptyDangling helloWorld).value ≠ some 0 := by
  decide

/-- C6, amended: for every string with `bytes = 0`, whatever its pointer,
`__irert__writefd__` issues exactly one write request, for zero bytes, handing
the pointer on unread, and returns the kernel's reply unchanged.  On the model
kernel, for every state and every descriptor that (narrowed to `int32_t`) is
open, the call is a no-op write that returns 0 and leaves the kernel state as
it was, whether or not the pointer is a mapped address; on a descriptor that
is not open it returns the failure value -9 and changes nothing either. -/
theorem writefd_zero_length (fd : Int) (str : i_string_t) (hzero : str.bytes = 0) :
    (∀ {κ : Type} (P : Platform κ) (w : World κ),
        (__irert__writefd__ P fd str w).world
            = ⟨(P.enter6 w.kernel P.SYS_write (toWord (toInt32 fd)) str.ptr 0 0 0 0).2,
                w.trace ++ [Request.syscall6 P.SYS_write (toWord (toInt32 fd)) str.ptr 0 0 0 0]⟩
          ∧ (__irert__writefd__ P fd str w).value
            = (P.enter6 w.kernel P.SYS_write (toWord (toInt32 fd)) str.ptr 0 0 0 0).1.map
                toInt64)
      ∧ (∀ (k : LinuxState) (t : List Request), isOpen k (toWord (toInt32 fd)) = true →
          __irert__writefd__ linux fd str ⟨k, t⟩
            = .returned 0
                ⟨k, t ++ [Request.syscall6 1 (toWord (toInt32 fd)) str.ptr 0 0 0 0]⟩)
      ∧ (∀ (k : LinuxState) (t : List Request), isOpen k (toWord (toInt32 fd)) = false →
          __irert__writefd__ linux fd str ⟨k, t⟩
            = .returned (-9)
                ⟨k, t ++ [Request.syscall6 1 (toWord (toInt32 fd)) str.ptr 0 0 0 0]⟩) := by
  have hneg : toInt64 (failure EBADF) = -9 := by decide
  have hz : toInt64 0 = 0 := by decide
  refine ⟨?_, ?_, ?_⟩
  · intro κ P w
    have h := writefd_outcome P fd str w
    rw [hzero, toWord_zero] at h
    exact h
  · intro k t hopen
    unfold isOpen at hopen
    unfold __irert__writefd__ writefd _syscall6
    rcases hfind : k.files.find? (fun f => decide (f.fd = toWord (toInt32 fd))) with _ | f
    · rw [hfind] at hopen
      simp at hopen
    · simp [linux, linuxWrite, hzero, toWord_zero, hfind, Outcome.map, hz]
  · intro k t hclosed
    unfold isOpen at hclosed
    unfold __irert__writefd__ writefd _syscall6
    rcases hfind : k.files.find? (fun f => decide (f.fd = toWord (toInt32 fd))) with _ | f
    · simp [linux, linuxWrite, hzero, toWord_zero, hfind, Outcome.map, hneg]
    · rw [hfind] at hclosed
      simp at hclosed

/-- Witness for C6 (amended): a zero-length write on the open descriptor 1 of
the model kernel, from a pointer that is not mapped, returns 0 and changes
nothing. -/
theorem writefd_zero_length_witness :
    emptyDangling.bytes = 0
      ∧ readByte helloState emptyDangling.ptr = none
      ∧ isOpen helloState (toWord (toInt32 1)) = true
      ∧ __irert__writefd__ linux 1 emptyDangling helloWorld
        = .returned 0 ⟨helloState, [Request.syscall6 1 1 0xdead0000 0 0 0 0]⟩ :=
  ⟨by decide, by decide, by decide,
    by
      have h := (writefd_zero_length 1 emptyDangling (by decide)).2.1 helloState []
        (by decide)
      exact h⟩

/-! ## C8: the entry point exits by itself -/

/-- C8: on a kernel that honours the exit contract, when the generated entry
point runs some code `pre` that returns, then calls `__irert__exit__(c)`, then
has further code `post`, `_start` ends in the exit request of `main`: the
trace is that of `pre` followed by the exit request for `c` and nothing else
(neither `post` nor the bootstrap's own exit request with status 0 is
issued), and the status observed is `c mod 256`. -/
theorem start_main_exits_first {κ : Type} (P : Platform κ) (status : κ → Option Nat)
    (hk : ExitContract P status) (c : Int) (pre : Run κ Unit) (post : Unit → Run κ Unit)
    (w w1 : World κ) (hpre : pre w = .returned () w1) :
    _start P (Run.andThen pre (fun _ => Run.andThen (__irert__exit__ P c) post)) w
        = .halted ⟨(P.enter1 w1.kernel P.SYS_exit (toWord c)).2,
            w1.trace ++ [Request.syscall1 P.SYS_exit (toWord c)]⟩
      ∧ (status (P.enter1 w1.kernel P.SYS_exit (toWord c)).2).map (fun n => (n : Int))
        = some (c % 256) := by
  have hexit := exit_halted P c w1 (hk w1.kernel (toWord c)).1
  constructor
  · unfold _start
    apply andThen_halted
    rw [andThen_returned pre _ w w1 () hpre]
    exact andThen_halted _ post w1 _ hexit
  · exact exit_status_of_contract P status hk c w1.kernel

/-- Witness for C8: an entry point that calls `__irert__exit__(7)` and then
would print; the process ends with status 7 after the single request
`exit(7)`. -/
theorem start_main_exits_first_witness :
    (ExitContract linux (fun k => k.exited) ∧ skip helloWorld = .returned () helloWorld)
      ∧ _start linux
          (Run.andThen skip (fun _ => Run.andThen (__irert__exit__ linux 7)
            (fun _ => __irert__print__ linux hello))) helloWorld
        = .halted ⟨{ helloState with exited := some 7 }, [Request.syscall1 60 7]⟩ :=
  ⟨⟨linux_exit_contract, rfl⟩,
    by
      have h := start_main_exits_first linux (fun k => k.exited) linux_exit_contract 7 skip
        (fun _ => __irert__print__ linux hello) helloWorld helloWorld rfl
      rw [h.1]
      decide⟩

/-! ## C9: print, then fall through -/

/-- C9: for every string `s` (length within `0 ≤ bytes < 2^63`) whose write
of `s.bytes` bytes on descriptor 1 the kernel accepts in full, `_start` run
from an empty trace with the entry point `__irert__print__(s)` issues exactly
the write request for descriptor 1, `s.ptr` and `s.bytes` and then the exit
request with status 0, and the kernel state is the one the accepted write and
then the exit leave; on a kernel that honours the exit contract control does
not come back and the status observed is 0. -/
theorem start_print_trace {κ : Type} (P : Platform κ) (status : κ → Option Nat)
    (s : i_string_t) (k k1 : κ) (hlen : 0 ≤ s.bytes ∧ s.bytes < 2 ^ 63)
    (hfull : P.enter6 k P.SYS_write 1 s.ptr s.bytes.toNat 0 0 0 = (some s.bytes.toNat, k1)) :
    (_start P (__irert__print__ P s) ⟨k, []⟩).world
        = ⟨(P.enter1 k1 P.SYS_exit 0).2,
            [Request.syscall6 P.SYS_write 1 s.ptr s.bytes.toNat 0 0 0,
              Request.syscall1 P.SYS_exit 0]⟩
      ∧ (ExitContract P status →
          _start P (__irert__print__ P s) ⟨k, []⟩
              = .halted ⟨(P.enter1 k1 P.SYS_exit 0).2,
                  [Request.syscall6 P.SYS_write 1 s.ptr s.bytes.toNat 0 0 0,
                    Request.syscall1 P.SYS_exit 0]⟩
            ∧ status (P.enter1 k1 P.SYS_exit 0).2 = some 0) := by
  have hcount : toWord s.bytes = s.bytes.toNat := toWord_of_nonneg _ hlen.1 hlen.2
  have h1 : toWord (toInt32 1) = 1 := by decide
  have hprint : __irert__print__ P s ⟨k, []⟩
      = .returned () ⟨k1, [Request.syscall6 P.SYS_write 1 s.ptr s.bytes.toNat 0 0 0]⟩ := by
    unfold __irert__print__ Run.andThen __irert__writefd__ writefd _syscall6
    simp [h1, hcount, hfull, Outcome.map]
  have hstart : _start P (__irert__print__ P s) ⟨k, []⟩
      = __irert__exit__ P 0 ⟨k1, [Request.syscall6 P.SYS_write 1 s.ptr s.bytes.toNat 0 0 0]⟩ := by
    unfold _start
    exact andThen_returned _ _ _ _ () hprint
  constructor
  · rw [hstart, exit_world, toWord_zero]
    rfl
  · intro hk
    have hexit := exit_halted P 0
      ⟨k1, [Request.syscall6 P.SYS_write 1 s.ptr s.bytes.toNat 0 0 0]⟩ (hk k1 (toWord 0)).1
    rw [toWord_zero] at hexit
    constructor
    · rw [hstart, hexit]
      rfl
    · have h0 := (hk k1 0).2
      simpa using h0

/-- Witness for C9: the 5-byte string "hello" on the model kernel; the bytes
`h e l l o` are what standard output holds at the end, and the exit status is
0. -/
theorem start_print_trace_witness :
    (ExitContract linux (fun k => k.exited)
        ∧ (0 ≤ hello.bytes ∧ hello.bytes < 2 ^ 63)
        ∧ linux.enter6 helloState linux.SYS_write 1 hello.ptr hello.bytes.toNat 0 0 0
          = (some hello.bytes.toNat, (linux.enter6 helloState 1 1 0x1000 5 0 0 0).2))
      ∧ (_start linux (__irert__print__ linux hello) helloWorld).world.trace
        = [Request.syscall6 1 1 0x1000 5 0 0 0, Request.syscall1 60 0]
      ∧ written (_start linux (__irert__print__ linux hello) helloWorld).world.kernel 1
        = some [104, 101, 108, 108, 111]
      ∧ (_start linux (__irert__print__ linux hello) helloWorld).world.kernel.exited = some 0 :=
  ⟨⟨linux_exit_contract, by decide, by decide⟩,
    by
      have h := start_print_trace linux (fun k => k.exited) hello helloState
        (linux.enter6 helloState 1 1 0x1000 5 0 0 0).2 (by decide) (by decide)
      have hw : helloWorld = ⟨helloState, []⟩ := rfl
      rw [hw, (h.2 linux_exit_contract).1]
      decide⟩

/-! ## C10: the descriptor and the count as machine words -/

/-- C10: the descriptor that `__irert__writefd__` hands to the gateway is the
low 32 bits of `fd`, sign-extended from bit 31 to a 64-bit word (the request
in the trace carries exactly that word); read as a signed number it equals
`fd` exactly when `-2^31 ≤ fd < 2^31`; for `fd = 2^32 + 1` the request is
issued on descriptor 1; the count is `bytes` modulo `2^64`, which for a
negative length is `2^64 + bytes`. -/
theorem writefd_descriptor_narrowed {κ : Type} (P : Platform κ) (fd : Int) (s : i_string_t)
    (w : World κ) :
    (__irert__writefd__ P fd s w).world.trace
        = w.trace ++ [Request.syscall6 P.SYS_write
            (if (fd % 2 ^ 32).toNat < 2 ^ 31 then (fd % 2 ^ 32).toNat
              else (fd % 2 ^ 32).toNat + (2 ^ 64 - 2 ^ 32))
            s.ptr (s.bytes % 2 ^ 64).toNat 0 0 0]
      ∧ (toInt64 (if (fd % 2 ^ 32).toNat < 2 ^ 31 then (fd % 2 ^ 32).toNat
              else (fd % 2 ^ 32).toNat + (2 ^ 64 - 2 ^ 32)) = fd
          ↔ -2 ^ 31 ≤ fd ∧ fd < 2 ^ 31)
      ∧ (__irert__writefd__ P (2 ^ 32 + 1) s w).world.trace
        = w.trace ++ [Request.syscall6 P.SYS_write 1 s.ptr (s.bytes % 2 ^ 64).toNat 0 0 0]
      ∧ (-2 ^ 63 ≤ s.bytes ∧ s.bytes < 0 →
          (((s.bytes % 2 ^ 64).toNat : Nat) : Int) = 2 ^ 64 + s.bytes) := by
  have hword : ∀ i : Int, toWord (toInt32 i)
      = if (i % 2 ^ 32).toNat < 2 ^ 31 then (i % 2 ^ 32).toNat
          else (i % 2 ^ 32).toNat + (2 ^ 64 - 2 ^ 32) := by
    intro i
    have h := toWord_cast (toInt32 i)
    have hnat : (((i % 2 ^ 32).toNat : Nat) : Int) = i % 2 ^ 32 :=
      Int.toNat_of_nonneg (Int.emod_nonneg _ (by norm_num))
    by_cases hlow : i % 2 ^ 32 < 2 ^ 31
    · have e : toInt32 i = i % 2 ^ 32 := by unfold toInt32; rw [if_pos hlow]
      rw [e] at h
      rw [e, if_pos (by omega)]
      omega
    · have e : toInt32 i = i % 2 ^ 32 - 2 ^ 32 := by unfold toInt32; rw [if_neg hlow]
      rw [e] at h
      rw [e, if_neg (by omega)]
      omega
  have hcount : toWord s.bytes = (s.bytes % 2 ^ 64).toNat := by
    have h := toWord_cast s.bytes
    omega
  have hsigned : toInt64 (toWord (toInt32 fd)) = toInt32 fd := by
    have hr := toInt32_range fd
    exact toInt64_toWord _ (by omega) (by omega)
  refine ⟨?_, ?_, ?_, ?_⟩
  · rw [(writefd_outcome P fd s w).1, hword, hcount]
  · rw [← hword, hsigned]
    exact toInt32_eq_iff fd
  · rw [(writefd_outcome P (2 ^ 32 + 1) s w).1, hcount]
    have h1 : toWord (toInt32 (2 ^ 32 + 1)) = 1 := by decide
    rw [h1]
  · intro h
    omega

/-- Witness for C10: descriptor `2^32 + 1` and length -1 on the model kernel:
the request goes to descriptor 1 with count `2^64 - 1`. -/
theorem writefd_descriptor_narrowed_witness :
    (-2 ^ 63 ≤ (-1 : Int) ∧ (-1 : Int) < 0)
      ∧ (__irert__writefd__ linux (2 ^ 32 + 1) ⟨-1, 0x1000⟩ helloWorld).world.trace
        = [Request.syscall6 1 1 0x1000 (2 ^ 64 - 1) 0 0 0] :=
  ⟨by decide,
    by
      have h := writefd_descriptor_narrowed linux (2 ^ 32 + 1) ⟨-1, 0x1000⟩ helloWorld
      rw [h.2.2.1]
      decide⟩

/-! ## C7: the region behind the pointer -/

theorem le_roundUp (len : Nat) : len ≤ roundUp len := by
  unfold roundUp PAGE
  omega

theorem lookup_filter_none (l : List (Nat × Nat)) (p : Nat × Nat → Bool) (a : Nat)
    (hp : ∀ v, p (a, v) = false) : (l.filter p).lookup a = none := by
  induction l with
  | nil => rfl
  | cons c l ih =>
    rcases c with ⟨b, v⟩
    by_cases hc : p (b, v) = true
    · have hne : (a == b) = false := by
        by_cases hab : a = b
        · subst hab
          rw [hp v] at hc
          exact absurd hc (by decide)
        · simpa using hab
      rw [List.filter_cons_of_pos hc]
      simp only [List.lookup, hne]
      exact ih
    · rw [List.filter_cons_of_neg hc]
      exact ih

theorem lookup_filter_keep (l : List (Nat × Nat)) (p : Nat × Nat → Bool) (a : Nat)
    (hp : ∀ v, p (a, v) = true) : (l.filter p).lookup a = l.lookup a := by
  induction l with
  | nil => rfl
  | cons c l ih =>
    rcases c with ⟨b, v⟩
    by_cases hab : a = b
    · subst hab
      rw [List.filter_cons_of_pos (hp v)]
      simp [List.lookup]
    · have hne : (a == b) = false := by simpa using hab
      by_cases hc : p (b, v) = true
      · rw [List.filter_cons_of_pos hc]
        simp only [List.lookup, hne]
        exact ih
      · rw [List.filter_cons_of_neg hc]
        simp only [List.lookup, hne]
        exact ih

theorem mapped_iff (k : LinuxState) (a : Nat) :
    mapped k a = true ↔ ∃ m ∈ k.maps, m.base ≤ a ∧ a < m.base + m.len := by
  simp [mapped]

theorem grantable_iff (k : LinuxState) (size : Nat) :
    grantable k size = true ↔
      size ≤ k.avail ∧ k.next + size ≤ TASK_SIZE
        ∧ ∀ m ∈ k.maps, m.base + m.len ≤ k.next ∨ k.next + size ≤ m.base := by
  simp [grantable, and_assoc]

/-- No address of a grantable run is mapped yet. -/
theorem grantable_fresh (k : LinuxState) (size i : Nat) (hg : grantable k size = true)
    (hi : i < size) : mapped k (k.next + i) = false := by
  have h := ((grantable_iff k size).1 hg).2.2
  cases hm : mapped k (k.next + i) with
  | false => rfl
  | true =>
    obtain ⟨m, hmem, hlo, hhi⟩ := (mapped_iff k (k.next + i)).1 hm
    have := h m hmem
    omega

theorem readByte_granted (k : LinuxState) (size i : Nat) (hi : i < size) :
    readByte (afterGrant k size) (k.next + i) = some 0 := by
  have hm : mapped (afterGrant k size) (k.next + i) = true := by
    simp [mapped, afterGrant, hi]
  unfold readByte
  rw [if_pos hm]
  have hl := lookup_filter_none k.cells
    (fun c => !decide (k.next ≤ c.1 ∧ c.1 < k.next + size)) (k.next + i)
    (by intro v; simp [hi])
  simp only [afterGrant, hl, Option.getD_none]

theorem readByte_kept (k : LinuxState) (size a : Nat) (hg : grantable k size = true)
    (ha : mapped k a = true) : readByte (afterGrant k size) a = readByte k a := by
  have h := ((grantable_iff k size).1 hg).2.2
  obtain ⟨m, hmem, hlo, hhi⟩ := (mapped_iff k a).1 ha
  have hout : ¬ (k.next ≤ a ∧ a < k.next + size) := by
    have := h m hmem
    omega
  have hm : mapped (afterGrant k size) a = true := by
    apply (mapped_iff _ a).2
    exact ⟨m, by simp [afterGrant, hmem], hlo, hhi⟩
  have hl := lookup_filter_keep k.cells
    (fun c => !decide (k.next ≤ c.1 ∧ c.1 < k.next + size)) a
    (by intro v; simp only [Bool.not_eq_true', decide_eq_false_iff_not]; exact hout)
  unfold readByte
  rw [if_pos hm, if_pos ha]
  simp only [afterGrant, hl]

theorem linuxMmap_zero (k : LinuxState) : linuxMmap k 0 0x3 0x22 0 = (some (2 ^ 64 - 22), k) := by
  unfold linuxMmap
  rw [if_pos rfl]
  rfl

theorem linuxMmap_refused (k : LinuxState) (len : Nat) (h0 : len ≠ 0)
    (hg : grantable k (roundUp len) = false) :
    linuxMmap k len 0x3 0x22 0 = (some (2 ^ 64 - 12), k) := by
  unfold linuxMmap
  rw [if_neg h0, if_neg (by decide), if_pos hg]
  rfl

theorem linuxMmap_granted (k : LinuxState) (len : Nat) (h0 : len ≠ 0)
    (hg : grantable k (roundUp len) = true) :
    linuxMmap k len 0x3 0x22 0 = (some k.next, afterGrant k (roundUp len)) := by
  unfold linuxMmap
  rw [if_neg h0, if_neg (by decide), if_neg (by simp [hg])]

/-- On the model kernel `__irert__gc_alloc__` is the mapping request. -/
theorem gc_alloc_linux (k : LinuxState) (t : List Request) (n : Int) (r : Nat)
    (k1 : LinuxState) (h : linuxMmap k (toWord n) 0x3 0x22 0 = (some r, k1)) :
    __irert__gc_alloc__ linux n ⟨k, t⟩
      = .returned r ⟨k1, t ++ [Request.syscall6 9 0 (toWord n) 3 34 (2 ^ 64 - 1) 0]⟩ := by
  have hm : toWord (-1) = 2 ^ 64 - 1 := by decide
  unfold __irert__gc_alloc__ _syscall6
  simp only [linux, hm]
  rw [if_pos trivial, h, if_neg (by decide)]

/-- C7, as stated, fails on the model kernel.  A request for 0 bytes is
refused: the pointer returned is the failure value -22 and no region was
mapped.  A request for `2^62` bytes, more than the address space holds, is
refused too: the pointer returned is the failure value -12 and the byte it
points at is not addressable. -/
theorem gc_alloc_region_counterexample :
    (__irert__gc_alloc__ linux 0 helloWorld).value = some (2 ^ 64 - 22)
      ∧ (__irert__gc_alloc__ linux 0 helloWorld).world.kernel = helloState
      ∧ mapped helloState (2 ^ 64 - 22) = false
      ∧ (__irert__gc_alloc__ linux (2 ^ 62) helloWorld).value = some (2 ^ 64 - 12)
      ∧ readByte (__irert__gc_alloc__ linux (2 ^ 62) helloWorld).world.kernel (2 ^ 64 - 12)
        = none := by
  decide

/-- C7, amended: on the model kernel, in every state and for every byte count
`n` with `0 ≤ n < 2^63`.  When `0 < n` (a multiple of the page size or not)
and the kernel can grant `n` rounded up to whole pages, `__irert__gc_alloc__`
returns the base of a newly mapped region of at least `n` bytes that lies
inside the address range of the process: none of its first `n` addresses was
mapped before, each is addressable afterwards and reads zero, and every byte
mapped before reads as it did.  When `n = 0` the pointer returned is the
failure value -22, and when `0 < n` cannot be granted it is the failure value
-12; in both cases the kernel state is unchanged, so no region was mapped. -/
theorem gc_alloc_region (k : LinuxState) (t : List Request) (n : Int)
    (h0 : 0 ≤ n) (hlt : n < 2 ^ 63) :
    (0 < n → grantable k (roundUp n.toNat) = true →
        (__irert__gc_alloc__ linux n ⟨k, t⟩).value = some k.next
          ∧ (⟨k.next, roundUp n.toNat⟩ : Mapping)
              ∈ (__irert__gc_alloc__ linux n ⟨k, t⟩).world.kernel.maps
          ∧ n.toNat ≤ roundUp n.toNat
          ∧ k.next + n.toNat ≤ TASK_SIZE
          ∧ (∀ i : Nat, (i : Int) < n →
              mapped k (k.next + i) = false
                ∧ readByte (__irert__gc_alloc__ linux n ⟨k, t⟩).world.kernel (k.next + i)
                  = some 0)
          ∧ (∀ a : Nat, mapped k a = true →
              readByte (__irert__gc_alloc__ linux n ⟨k, t⟩).world.kernel a = readByte k a))
      ∧ (n = 0 →
          __irert__gc_alloc__ linux n ⟨k, t⟩
            = .returned (2 ^ 64 - 22)
                ⟨k, t ++ [Request.syscall6 9 0 0 3 34 (2 ^ 64 - 1) 0]⟩)
      ∧ (0 < n → grantable k (roundUp n.toNat) = false →
          __irert__gc_alloc__ linux n ⟨k, t⟩
            = .returned (2 ^ 64 - 12)
                ⟨k, t ++ [Request.syscall6 9 0 n.toNat 3 34 (2 ^ 64 - 1) 0]⟩) := by
  have hword : toWord n = n.toNat := toWord_of_nonneg n h0 hlt
  have hle := le_roundUp n.toNat
  refine ⟨?_, ?_, ?_⟩
  · intro hpos hg
    have hne : n.toNat ≠ 0 := by omega
    have hrun := gc_alloc_linux k t n k.next (afterGrant k (roundUp n.toNat))
      (by rw [hword]; exact linuxMmap_granted k n.toNat hne hg)
    have hfit := ((grantable_iff k (roundUp n.toNat)).1 hg).2.1
    rw [hrun]
    refine ⟨rfl, ?_, hle, by omega, ?_, ?_⟩
    · simp [Outcome.world, afterGrant]
    · intro i hi
      have hi1 : i < roundUp n.toNat := by omega
      exact ⟨grantable_fresh k _ i hg hi1, readByte_granted k _ i hi1⟩
    · intro a ha
      exact readByte_kept k _ a hg ha
  · intro hz
    have hrun := gc_alloc_linux k t n (2 ^ 64 - 22) k
      (by rw [hz, toWord_zero]; exact linuxMmap_zero k)
    rw [hrun, hz, toWord_zero]
  · intro hpos hg
    have hne : n.toNat ≠ 0 := by omega
    have hrun := gc_alloc_linux k t n (2 ^ 64 - 12) k
      (by rw [hword]; exact linuxMmap_refused k n.toNat hne hg)
    rw [hrun, hword]

/-- Witness for C7 (amended): 4097 bytes requested on the model kernel give a
region of two pages at 0x10000; the byte at offset 4096 reads zero and the
first byte of "hello", mapped before, still reads 104. -/
theorem gc_alloc_region_witness :
    ((0 : Int) ≤ 4097 ∧ (4097 : Int) < 2 ^ 63
        ∧ grantable helloState (roundUp (4097 : Int).toNat) = true
        ∧ mapped helloState 0x1000 = true)
      ∧ (__irert__gc_alloc__ linux 4097 helloWorld).value = some 0x10000
      ∧ readByte (__irert__gc_alloc__ linux 4097 helloWorld).world.kernel (0x10000 + 4096)
        = some 0
      ∧ readByte (__irert__gc_alloc__ linux 4097 helloWorld).world.kernel 0x1000 = some 104 :=
  ⟨⟨by decide, by decide, by decide, by decide⟩,
    by
      have h := (gc_alloc_region helloState [] 4097 (by decide) (by decide)).1
        (by decide) (by decide)
      refine ⟨h.1, (h.2.2.2.2.1 4096 (by decide)).2, ?_⟩
      have hk := h.2.2.2.2.2 0x1000 (by decide)
      rw [show helloWorld = ⟨helloState, []⟩ from rfl, hk]
      decide⟩

end IreRuntime
